import Mathlib

/-!
Verification of the ronin Java toolchain module over a shallow embedding.

The embedded source is src/ronin/java/__init__.py: the JavaCompile and Jar
command builders, the JavaClasses extension, the three compile hooks, and the
jar-inputs variable resolver.  The ronin core that this module is written
against (the hierarchical configuration context, the ExecutorWithArguments
command-builder base, extension dispatch, the executable resolver and the
path normalizer) is not part of the provided sources; those pieces are
modelled from the specification, and each such definition is marked
"Modelled from the spec".  The path normalizer pathify, the executable
resolver which, and the argument filter are kept abstract as function
parameters, since the spec treats them as external collaborators.
-/

namespace Ronin

/-- A produced-artifact descriptor as recorded in the output registry:
path is the output directory the artifact was generated under, file is the
artifact's file path. -/
structure Output where
  path : String
  file : String
deriving DecidableEq, Repr

/-- Output registry: project identity maps to a table from phase name to that
phase's ordered recorded outputs.  Project identity is abstracted as a Nat. -/
abbrev Registry := List (Nat × List (String × List Output))

/-- Values stored in the configuration context. -/
inductive Value where
  | vstr (s : String)
  | vbool (b : Bool)
  | vnone
  | vreg (r : Registry)
deriving DecidableEq, Repr

/-- Python truthiness of a stored value. -/
def Value.truthy : Value → Bool
  | .vstr s => s ≠ ""
  | .vbool b => b
  | .vnone => false
  | .vreg r => r ≠ []

/-- First-match association lookup, the shallow embedding of dict.get /
attribute lookup. -/
def dictGet {κ α : Type} [DecidableEq κ] : List (κ × α) → κ → Option α
  | [], _ => none
  | (k, v) :: rest, key => if k = key then some v else dictGet rest key

/-- One configuration scope: an association of keys to values (later entries
shadow earlier ones, mirroring in-place assignment). -/
abbrev Scope := List (String × Value)

/-- Modelled from the spec: the configuration store is a stack of scopes,
innermost first. -/
abbrev Ctx := List Scope

/-- Modelled from the spec: lookup walks from the innermost active scope
outward to the root, returning the first match. -/
def ctxGet : Ctx → String → Option Value
  | [], _ => none
  | s :: ss, key =>
    match dictGet s key with
    | some v => some v
    | none => ctxGet ss key

/-- ctx.get with a default, as in ctx.get(key, default). -/
def ctxGetD (c : Ctx) (key : String) (dflt : Value) : Value :=
  (ctxGet c key).getD dflt

/-- Modelled from the spec: set writes the entry into the innermost active
scope and never affects outer scopes. -/
def ctxSet : Ctx → String → Value → Ctx
  | [], key, v => [[(key, v)]]
  | s :: ss, key, v => ((key, v) :: s) :: ss

/-- Modelled from the spec: pushing a scope onto the store. -/
def pushScope (s : Scope) (c : Ctx) : Ctx := s :: c

/-- Modelled from the spec: popping the innermost scope. -/
def popScope : Ctx → Ctx := List.tail

/-- Modelled from the spec: fallback(explicit, key, default) returns explicit
if it is not empty, else looks the key up in the store, else the default. -/
def fallback (c : Ctx) (explicit : Option String) (key dflt : String) : String :=
  match explicit with
  | some s => if s = "" then fallbackKey c key dflt else s
  | none => fallbackKey c key dflt
where
  /-- The key lookup leg of fallback: the stored string if the key is set,
  else the default. -/
  fallbackKey (c : Ctx) (key dflt : String) : String :=
    match ctxGet c key with
    | some (.vstr s) => s
    | _ => dflt

/-- One command-line argument slot: filtered arguments are subject to the
argument filter at render time, unfiltered ones pass through verbatim. -/
inductive Arg where
  | filtered (s : String)
  | unfiltered (s : String)
deriving DecidableEq, Repr

/-- The hook functions defined by the Java module, embedded as tags
interpreted by run_hook. -/
inductive Hook where
  | debugHook
  | compileHook
  | classpathHook
deriving DecidableEq, Repr

/-- The deferred variable functions defined by the Java module, embedded as
tags interpreted by resolve_var. -/
inductive Var where
  | javaJarInputsVar
  | javaOutputPathVar
deriving DecidableEq, Repr

/-- The Python class of an executor, for isinstance checks. -/
inductive ExecKind where
  | javaCompile
  | jar
  | other
deriving DecidableEq, Repr

/-- Modelled from the spec: a command builder owns a command source (here the
captured explicit command, the configuration key and the default that the
Java module's command lambdas close over), a set of kind tags, an ordered
argument list, an ordered hook list, and for JavaCompile a classpath. -/
structure Executor where
  kind : ExecKind
  commandExplicit : Option String
  commandKey : String
  commandDefault : String
  commandTypes : List String
  outputType : String
  outputExtension : String
  args : List Arg
  hooks : List Hook
  classpath : List String
deriving DecidableEq, Repr

/-- Modelled from the spec: add_argument appends each value as a filtered
token at the end of the argument list. -/
def Executor.add_argument (e : Executor) (values : List String) : Executor :=
  { e with args := e.args ++ values.map Arg.filtered }

/-- Modelled from the spec: add_argument_unfiltered appends each value as a
verbatim token at the end of the argument list. -/
def Executor.add_argument_unfiltered (e : Executor) (values : List String) : Executor :=
  { e with args := e.args ++ values.map Arg.unfiltered }

def DEFAULT_JAVAC_COMMAND : String := "javac"

def DEFAULT_JAR_COMMAND : String := "jar"

/-- JavaCompile.enable_debug from the source: add_argument of -g. -/
def Executor.enable_debug (e : Executor) : Executor :=
  e.add_argument ["-g"]

/-- JavaCompile.add_classpath from the source: append to the classpath. -/
def Executor.add_classpath (e : Executor) (value : String) : Executor :=
  { e with classpath := e.classpath ++ [value] }

/-- JavaCompile.__init__ from the source: the command lambda closes over the
explicit command, the key java.javac_command and the default javac; the
classpath is the given one (classpath or []); one unfiltered argument dollar-in
is added; the debug, compile and classpath hooks are registered in that
order. -/
def JavaCompile (command : Option String) (classpath : List String) : Executor :=
  let e : Executor :=
    { kind := .javaCompile
      commandExplicit := command
      commandKey := "java.javac_command"
      commandDefault := DEFAULT_JAVAC_COMMAND
      commandTypes := []
      outputType := "object"
      outputExtension := "class"
      args := []
      hooks := []
      classpath := classpath }
  let e := e.add_argument_unfiltered ["$in"]
  { e with hooks := e.hooks ++ [.debugHook, .compileHook, .classpathHook] }

/-- Jar.__init__ from the source: the command lambda closes over the explicit
command, the key java.jar_command and the default jar; the kind tag list is
exactly java_jar; with a manifest the arguments cfm, dollar-out (unfiltered)
and the manifest (filtered) are added, otherwise cf and dollar-out
(unfiltered). -/
def Jar (command : Option String) (manifest : Option String) : Executor :=
  let e : Executor :=
    { kind := .jar
      commandExplicit := command
      commandKey := "java.jar_command"
      commandDefault := DEFAULT_JAR_COMMAND
      commandTypes := ["java_jar"]
      outputType := "binary"
      outputExtension := "jar"
      args := []
      hooks := []
      classpath := [] }
  match manifest with
  | some m => ((e.add_argument_unfiltered ["cfm"]).add_argument_unfiltered ["$out"]).add_argument [m]
  | none => (e.add_argument_unfiltered ["cf"]).add_argument_unfiltered ["$out"]

/-- The resolution of an executor's command, as both Java command lambdas
compute it: the executable resolver applied to
fallback(explicit, key, default).  The resolver which is abstract. -/
def resolve_command (which : String → String) (c : Ctx) (e : Executor) : String :=
  which (fallback c e.commandExplicit e.commandKey e.commandDefault)

/-- The JavaClasses extension from the source: a weak reference to another
phase held as project identity plus phase name. -/
structure JavaClasses where
  _project : Nat
  _phase_name : String
deriving DecidableEq, Repr

/-- A phase, with the attributes the Java module touches: its executor, its
input path, its output path, its variable table, its rebuild_on_from list,
and its dynamically stashed attributes (here the _classes_extensions stash
keyed by attribute name, so stashes of different extension kinds live under
different keys). -/
structure Phase where
  executor : Executor
  input_path : String
  output_path : String
  vars : List (String × Var)
  rebuild_on_from : List String
  attrs : List (String × List JavaClasses)
deriving DecidableEq, Repr

/-- JavaClasses.apply_to_phase from the source: verify_type demands a Jar
executor (a TypeError otherwise, before any mutation); then the referenced
phase name is appended to rebuild_on_from, the variable inputs is bound to
the jar-inputs resolver, and the extension is appended to the
_classes_extensions stash (created empty when absent). -/
def JavaClasses.apply_to_phase (ext : JavaClasses) (phase : Phase) : Except String Phase :=
  if phase.executor.kind = .jar then
    let stash :=
      match dictGet phase.attrs "_classes_extensions" with
      | some l => l
      | none => []
    .ok { phase with
          rebuild_on_from := phase.rebuild_on_from ++ [ext._phase_name]
          vars := ("inputs", Var.javaJarInputsVar) :: phase.vars
          attrs := ("_classes_extensions", stash ++ [ext]) :: phase.attrs }
  else
    .error "TypeError: phase.executor must be a Jar"

/-- JavaClasses.apply_to_executor_java_jar from the source: append the
verbatim argument dollar-inputs. -/
def JavaClasses.apply_to_executor_java_jar (_ext : JavaClasses) (e : Executor) : Executor :=
  e.add_argument_unfiltered ["$inputs"]

/-- Modelled from the spec: missing core extension dispatch.  The kind-bound
action of a JavaClasses extension is tied to the tag java_jar; it is invoked
exactly when the command builder declares that tag, and skipped otherwise. -/
def dispatch_java_classes (ext : JavaClasses) (e : Executor) : Executor :=
  if "java_jar" ∈ e.commandTypes then ext.apply_to_executor_java_jar e else e

/-- JavaClasses._classes_outputs from the source: read
current.project_outputs from the context (None yields []); an unknown
project yields []; the phase's entry, or [] when absent or empty.  Reading
an attribute of a non-mapping value would raise, hence the Except. -/
def JavaClasses._classes_outputs (ext : JavaClasses) (c : Ctx) : Except String (List Output) :=
  match ctxGet c "current.project_outputs" with
  | none => .ok []
  | some .vnone => .ok []
  | some (.vreg project_outputs) =>
    match dictGet project_outputs ext._project with
    | none => .ok []
    | some phase_outputs => .ok ((dictGet phase_outputs ext._phase_name).getD [])
  | some _ => .error "AttributeError: value has no attribute get"

/-- The recorded outputs a JavaClasses extension sees in a given registry:
the referenced project's table, then the referenced phase's list, empty when
either is absent. -/
def recorded_outputs (reg : Registry) (ext : JavaClasses) : List Output :=
  match dictGet reg ext._project with
  | none => []
  | some phase_outputs => (dictGet phase_outputs ext._phase_name).getD []

def osSep : String := "/"

/-- Python str.startswith, evaluated on the underlying character lists. -/
def str_starts_with (s pre : String) : Bool :=
  pre.data.isPrefixOf s.data

/-- Python str.endswith, evaluated on the underlying character lists. -/
def str_ends_with (s post : String) : Bool :=
  post.data.isSuffixOf s.data

/-- Python slicing s from index n on, counted in characters. -/
def str_drop (s : String) (n : Nat) : String :=
  String.mk (s.data.drop n)

/-- The directory with a guaranteed trailing separator, as the inner arg
function of _java_jar_inputs_var computes it. -/
def withSep (path : String) : String :=
  if str_ends_with path osSep then path else path ++ osSep

/-- The inner arg function of _java_jar_inputs_var from the source: when the
file starts with its directory (taken with a trailing separator) render
dash-C directory file-relative-to-directory, else the pathified file
alone. -/
def jar_inputs_arg (pathify : String → String) (output : Output) : String :=
  let path := withSep output.path
  let the_file := output.file
  if str_starts_with the_file path then
    "-C " ++ pathify path ++ " " ++ pathify (str_drop the_file path.length)
  else
    pathify the_file

/-- _java_jar_inputs_var from the source: concatenate every stashed
extension's _classes_outputs in stash order (an absent stash attribute is an
AttributeError), render each output with the arg function, and join with
single spaces.  The current phase, read from the context by the source, is
passed explicitly. -/
def _java_jar_inputs_var (pathify : String → String) (c : Ctx) (phase : Phase) :
    Except String String :=
  match dictGet phase.attrs "_classes_extensions" with
  | none => .error "AttributeError: phase has no attribute _classes_extensions"
  | some exts => do
    let outputs ← exts.mapM (fun ce => ce._classes_outputs c)
    .ok (String.intercalate " " ((outputs.flatten).map (jar_inputs_arg pathify)))

/-- _java_output_path_var from the source: the current phase's output path
(the current phase is passed explicitly). -/
def _java_output_path_var (phase : Phase) : String :=
  phase.output_path

/-- The variable resolver for the deferred variables of the Java module. -/
def resolve_var (pathify : String → String) (c : Ctx) (phase : Phase) :
    Var → Except String String
  | .javaJarInputsVar => _java_jar_inputs_var pathify c phase
  | .javaOutputPathVar => .ok (_java_output_path_var phase)

/-- _debug_hook from the source: when ctx.get of build.debug (default False)
is truthy, enable_debug (append -g); otherwise do nothing. -/
def run_hook (pathify : String → String) (c : Ctx) (phase : Phase) : Hook → Phase
  | .debugHook =>
    if (ctxGetD c "build.debug" (.vbool false)).truthy then
      { phase with executor := phase.executor.enable_debug }
    else
      phase
  | .compileHook =>
    let e := phase.executor.add_argument_unfiltered ["-d", "$output_path"]
    let e := e.add_classpath phase.input_path
    { phase with
      executor := e
      vars := ("output_path", Var.javaOutputPathVar) :: phase.vars }
  | .classpathHook =>
    if phase.executor.classpath = [] then
      phase
    else
      let joined := String.intercalate ":" (phase.executor.classpath.map pathify)
      { phase with executor := phase.executor.add_argument ["-classpath", joined] }

/-- The result of finalizing a command builder: the resolved command, the
rendered token list, and the phase after the hooks ran. -/
structure Finalized where
  command : String
  tokens : List String
  phase : Phase

/-- Rendering one argument slot: filtered slots go through the argument
filter, unfiltered slots pass verbatim. -/
def render_arg (afilter : String → String) : Arg → String
  | .filtered s => afilter s
  | .unfiltered s => s

/-- Modelled from the spec: missing core finalize.  The command source is
resolved (through the executable resolver), the hooks run in registration
order exactly once each, then the arguments are rendered into one ordered
token list. -/
def finalize (pathify which afilter : String → String) (c : Ctx) (phase : Phase) :
    Finalized :=
  let phase' := phase.executor.hooks.foldl (run_hook pathify c) phase
  { command := resolve_command which c phase'.executor
    tokens := phase'.executor.args.map (render_arg afilter)
    phase := phase' }

/-- configure_java from the source: set java.javac_command to the given
command or the default javac (Python or: None and the empty string both fall
back), and java.jar_command likewise. -/
def configure_java (javac_command jar_command : Option String) (c : Ctx) : Ctx :=
  let c := ctxSet c "java.javac_command" (.vstr (pyOr javac_command DEFAULT_JAVAC_COMMAND))
  ctxSet c "java.jar_command" (.vstr (pyOr jar_command DEFAULT_JAR_COMMAND))
where
  /-- Python x or d for an optional string: d when x is None or empty. -/
  pyOr (v : Option String) (dflt : String) : String :=
    match v with
    | some s => if s = "" then dflt else s
    | none => dflt

/-- Sequential attachment of several JavaClasses extensions to one phase. -/
def apply_all (exts : List JavaClasses) (phase : Phase) : Except String Phase :=
  exts.foldlM (fun p e => e.apply_to_phase p) phase

/-! Helper lemmas about the configuration store. -/

theorem ctxGet_ctxSet_same (c : Ctx) (k : String) (v : Value) :
    ctxGet (ctxSet c k v) k = some v := by
  cases c <;> simp [ctxSet, ctxGet, dictGet]

theorem ctxGet_ctxSet_other (c : Ctx) (k k2 : String) (v : Value) (h : k ≠ k2) :
    ctxGet (ctxSet c k v) k2 = ctxGet c k2 := by
  cases c <;> simp [ctxSet, ctxGet, dictGet, h]

/-- Claim C10: configure_java sets exactly two context entries,
java.javac_command (the verbatim argument when non-empty, the default javac
when the argument is None or empty) and java.jar_command (likewise with
default jar); every other key reads exactly as before. -/
theorem configure_java_sets_exactly_two (jc jr : Option String) (c : Ctx) :
    ctxGet (configure_java jc jr c) "java.javac_command"
      = some (.vstr (configure_java.pyOr jc DEFAULT_JAVAC_COMMAND))
    ∧ ctxGet (configure_java jc jr c) "java.jar_command"
      = some (.vstr (configure_java.pyOr jr DEFAULT_JAR_COMMAND))
    ∧ (∀ k, k ≠ "java.javac_command" → k ≠ "java.jar_command" →
        ctxGet (configure_java jc jr c) k = ctxGet c k)
    ∧ (jc = none ∨ jc = some "" → configure_java.pyOr jc DEFAULT_JAVAC_COMMAND = "javac")
    ∧ (∀ s, s ≠ "" → jc = some s → configure_java.pyOr jc DEFAULT_JAVAC_COMMAND = s)
    ∧ (jr = none ∨ jr = some "" → configure_java.pyOr jr DEFAULT_JAR_COMMAND = "jar")
    ∧ (∀ s, s ≠ "" → jr = some s → configure_java.pyOr jr DEFAULT_JAR_COMMAND = s) := by
  refine ⟨?_, ?_, fun k h1 h2 => ?_, fun h => ?_, fun s hs hjc => ?_,
    fun h => ?_, fun s hs hjr => ?_⟩
  · rw [configure_java, ctxGet_ctxSet_other _ _ _ _ (by decide), ctxGet_ctxSet_same]
  · rw [configure_java, ctxGet_ctxSet_same]
  · rw [configure_java, ctxGet_ctxSet_other _ _ _ _ (Ne.symm h2),
      ctxGet_ctxSet_other _ _ _ _ (Ne.symm h1)]
  · rcases h with rfl | rfl <;> simp [configure_java.pyOr, DEFAULT_JAVAC_COMMAND]
  · subst hjc; simp [configure_java.pyOr, hs]
  · rcases h with rfl | rfl <;> simp [configure_java.pyOr, DEFAULT_JAR_COMMAND]
  · subst hjr; simp [configure_java.pyOr, hs]

/-- Witness for C10 at concrete inputs: an unrelated key is untouched and
the explicit javac command lands verbatim. -/
theorem configure_java_sets_exactly_two_witness :
    ctxGet (configure_java (some "my-javac") none [[("x", Value.vstr "y")]]) "x"
      = some (Value.vstr "y")
    ∧ ctxGet (configure_java (some "my-javac") none [[("x", Value.vstr "y")]])
        "java.javac_command" = some (Value.vstr "my-javac") := by
  have h := configure_java_sets_exactly_two (some "my-javac") none [[("x", Value.vstr "y")]]
  refine ⟨h.2.2.1 "x" (by decide) (by decide), ?_⟩
  rw [h.1, h.2.2.2.2.1 "my-javac" (by decide) rfl]

/-- Claim C3: a JavaCompile builder constructed with command None resolves
its command to the executable resolution of java.javac_command in the active
scope, defaulting to javac when the key is unset; a non-empty explicit
command is resolved instead, in any context whatsoever. -/
theorem javac_command_resolution (which : String → String) (c : Ctx) (cp : List String) :
    (∀ s, ctxGet c "java.javac_command" = some (.vstr s) →
      resolve_command which c (JavaCompile none cp) = which s)
    ∧ (ctxGet c "java.javac_command" = none →
      resolve_command which c (JavaCompile none cp) = which "javac")
    ∧ (∀ s, s ≠ "" → ∀ c2 : Ctx,
        resolve_command which c2 (JavaCompile (some s) cp) = which s) := by
  refine ⟨fun s hs => ?_, fun hn => ?_, fun s hs c2 => ?_⟩
  · simp [resolve_command, JavaCompile, Executor.add_argument_unfiltered,
      fallback, fallback.fallbackKey, hs]
  · simp [resolve_command, JavaCompile, Executor.add_argument_unfiltered,
      fallback, fallback.fallbackKey, hn, DEFAULT_JAVAC_COMMAND]
  · simp [resolve_command, JavaCompile, Executor.add_argument_unfiltered, fallback, hs]

/-- Witness for C3: the scenario of the spec, with the identity resolver --
the key set to custom-javac resolves to custom-javac, and an explicit
command wins over it. -/
theorem javac_command_resolution_witness :
    resolve_command id [[("java.javac_command", Value.vstr "custom-javac")]]
      (JavaCompile none []) = "custom-javac"
    ∧ resolve_command id [[("java.javac_command", Value.vstr "custom-javac")]]
      (JavaCompile (some "explicit-javac") []) = "explicit-javac" := by
  have h := javac_command_resolution id
    [[("java.javac_command", Value.vstr "custom-javac")]] []
  exact ⟨h.1 "custom-javac" (by decide), h.2.2 "explicit-javac" (by decide) _⟩

/-- Claim C2: a JavaClasses query for another phase's outputs yields the
empty list, not an error, when the output registry is absent from the
context, when it is None, when the project is unknown to it, or when the
phase is unknown or not yet generated. -/
theorem classes_outputs_graceful (c : Ctx) (ext : JavaClasses) :
    (ctxGet c "current.project_outputs" = none → ext._classes_outputs c = .ok [])
    ∧ (ctxGet c "current.project_outputs" = some .vnone → ext._classes_outputs c = .ok [])
    ∧ (∀ reg, ctxGet c "current.project_outputs" = some (.vreg reg) →
        dictGet reg ext._project = none → ext._classes_outputs c = .ok [])
    ∧ (∀ reg po, ctxGet c "current.project_outputs" = some (.vreg reg) →
        dictGet reg ext._project = some po →
        dictGet po ext._phase_name = none → ext._classes_outputs c = .ok []) := by
  refine ⟨fun h => ?_, fun h => ?_, fun reg h hp => ?_, fun reg po h hp hn => ?_⟩
  · simp [JavaClasses._classes_outputs, h]
  · simp [JavaClasses._classes_outputs, h]
  · simp [JavaClasses._classes_outputs, h, hp]
  · simp [JavaClasses._classes_outputs, h, hp, hn]

/-- Witness for C2: a registry knowing the project but not the phase, and a
context with no registry at all, both yield the empty list. -/
theorem classes_outputs_graceful_witness :
    JavaClasses._classes_outputs ⟨0, "compile"⟩ [] = .ok []
    ∧ JavaClasses._classes_outputs ⟨0, "compile"⟩
        [[("current.project_outputs", Value.vreg [(0, [("other", [])])])]] = .ok [] := by
  refine ⟨(classes_outputs_graceful [] ⟨0, "compile"⟩).1 rfl, ?_⟩
  exact (classes_outputs_graceful _ ⟨0, "compile"⟩).2.2.2 [(0, [("other", [])])]
    [("other", [])] (by decide) (by decide) (by decide)

/-- Claim C4: applying a JavaClasses extension to a phase whose executor is
not a Jar fails with a TypeError at attachment time; no mutated phase is
ever produced. -/
theorem apply_to_phase_type_error (ext : JavaClasses) (ph : Phase)
    (h : ph.executor.kind ≠ .jar) :
    ext.apply_to_phase ph = .error "TypeError: phase.executor must be a Jar"
    ∧ ∀ ph2, ext.apply_to_phase ph ≠ .ok ph2 := by
  refine ⟨?_, fun ph2 => ?_⟩ <;> simp [JavaClasses.apply_to_phase, h]

/-- Witness for C4: attaching to a JavaCompile phase is a TypeError. -/
theorem apply_to_phase_type_error_witness :
    JavaClasses.apply_to_phase ⟨0, "compile"⟩
      (Phase.mk (JavaCompile none []) "src" "build" [] [] [])
      = .error "TypeError: phase.executor must be a Jar" :=
  (apply_to_phase_type_error ⟨0, "compile"⟩
    (Phase.mk (JavaCompile none []) "src" "build" [] [] []) (by decide)).1

/-- Claim C7: a Jar builder declares exactly the kind tag java_jar; the
JavaClasses kind action appends the verbatim argument dollar-inputs whenever
dispatched on a builder declaring that tag, and dispatch never touches a
builder lacking it -- in particular never a JavaCompile, whose tag list is
empty. -/
theorem java_jar_dispatch (ext : JavaClasses) (e : Executor)
    (cmd manifest : Option String) :
    (Jar cmd manifest).commandTypes = ["java_jar"]
    ∧ ("java_jar" ∈ e.commandTypes →
        dispatch_java_classes ext e
          = { e with args := e.args ++ [Arg.unfiltered "$inputs"] })
    ∧ ("java_jar" ∉ e.commandTypes → dispatch_java_classes ext e = e)
    ∧ (∀ c2 cp, (JavaCompile c2 cp).commandTypes = [])
    ∧ (∀ c2 cp, dispatch_java_classes ext (JavaCompile c2 cp) = JavaCompile c2 cp) := by
  refine ⟨?_, fun h => ?_, fun h => ?_, fun c2 cp => ?_, fun c2 cp => ?_⟩
  · cases manifest <;>
      simp [Jar, Executor.add_argument, Executor.add_argument_unfiltered]
  · simp [dispatch_java_classes, h, JavaClasses.apply_to_executor_java_jar,
      Executor.add_argument_unfiltered]
  · simp [dispatch_java_classes, h]
  · simp [JavaCompile, Executor.add_argument_unfiltered]
  · simp [dispatch_java_classes, JavaCompile, Executor.add_argument_unfiltered]

/-- Witness for C7: dispatch on a concrete Jar builder appends the verbatim
dollar-inputs argument. -/
theorem java_jar_dispatch_witness :
    dispatch_java_classes ⟨0, "compile"⟩ (Jar none none)
      = { Jar none none with args := (Jar none none).args ++ [Arg.unfiltered "$inputs"] } :=
  (java_jar_dispatch ⟨0, "compile"⟩ (Jar none none) none none).2.1 (by decide)

/-- Claim C8: each run of the debug hook appends the filtered argument -g
exactly when build.debug is truthy in the active scope; an absent key
defaults to False and the hook leaves the phase untouched. -/
theorem debug_hook_appends_g_iff (pathify : String → String) (c : Ctx) (ph : Phase) :
    ((ctxGetD c "build.debug" (.vbool false)).truthy = true →
      run_hook pathify c ph .debugHook
        = { ph with executor := { ph.executor with
              args := ph.executor.args ++ [Arg.filtered "-g"] } })
    ∧ ((ctxGetD c "build.debug" (.vbool false)).truthy = false →
      run_hook pathify c ph .debugHook = ph)
    ∧ (ctxGet c "build.debug" = none → run_hook pathify c ph .debugHook = ph) := by
  refine ⟨fun h => ?_, fun h => ?_, fun h => ?_⟩
  · simp [run_hook, h, Executor.enable_debug, Executor.add_argument]
  · simp [run_hook, h]
  · simp [run_hook, ctxGetD, h, Value.truthy]

/-- Witness for C8: with build.debug set true, -g is appended to a concrete
JavaCompile phase; with it unset, the phase is untouched. -/
theorem debug_hook_appends_g_iff_witness :
    run_hook id [[("build.debug", Value.vbool true)]]
        (Phase.mk (JavaCompile none []) "src" "build" [] [] []) .debugHook
      = { Phase.mk (JavaCompile none []) "src" "build" [] [] [] with
          executor := { JavaCompile none [] with
            args := (JavaCompile none []).args ++ [Arg.filtered "-g"] } }
    ∧ run_hook id [] (Phase.mk (JavaCompile none []) "src" "build" [] [] []) .debugHook
      = Phase.mk (JavaCompile none []) "src" "build" [] [] [] := by
  refine ⟨?_, (debug_hook_appends_g_iff id [] _).2.2 rfl⟩
  exact (debug_hook_appends_g_iff id [[("build.debug", Value.vbool true)]]
    (Phase.mk (JavaCompile none []) "src" "build" [] [] [])).1 (by decide)

/-- Claim C9: the classpath hook leaves the phase entirely unchanged when the
classpath is empty; with a non-empty classpath it changes nothing except
appending the -classpath option with the pathified entries joined by colons
in list order. -/
theorem classpath_hook_frame (pathify : String → String) (c : Ctx) (ph : Phase) :
    (ph.executor.classpath = [] → run_hook pathify c ph .classpathHook = ph)
    ∧ (ph.executor.classpath ≠ [] →
      run_hook pathify c ph .classpathHook
        = { ph with executor := { ph.executor with
              args := ph.executor.args ++
                [Arg.filtered "-classpath",
                 Arg.filtered (String.intercalate ":"
                   (ph.executor.classpath.map pathify))] } }) := by
  refine ⟨fun h => ?_, fun h => ?_⟩
  · simp [run_hook, h]
  · simp [run_hook, h, Executor.add_argument]

/-- Witness for C9: a concrete two-entry classpath is joined with a colon,
and an empty one leaves the phase untouched. -/
theorem classpath_hook_frame_witness :
    run_hook id [] (Phase.mk (JavaCompile none ["a", "b"]) "src" "build" [] [] [])
        .classpathHook
      = { Phase.mk (JavaCompile none ["a", "b"]) "src" "build" [] [] [] with
          executor := { JavaCompile none ["a", "b"] with
            args := (JavaCompile none ["a", "b"]).args ++
              [Arg.filtered "-classpath",
               Arg.filtered (String.intercalate ":" (["a", "b"].map id))] } }
    ∧ run_hook id [] (Phase.mk (JavaCompile none []) "src" "build" [] [] [])
        .classpathHook
      = Phase.mk (JavaCompile none []) "src" "build" [] [] [] := by
  refine ⟨?_, (classpath_hook_frame id [] _).1 rfl⟩
  exact (classpath_hook_frame id []
    (Phase.mk (JavaCompile none ["a", "b"]) "src" "build" [] [] [])).2 (by decide)

/-- Helper: the explicit result of a successful apply_to_phase. -/
theorem apply_to_phase_ok (ext : JavaClasses) (ph : Phase)
    (h : ph.executor.kind = .jar) :
    ext.apply_to_phase ph = .ok
      { ph with
        rebuild_on_from := ph.rebuild_on_from ++ [ext._phase_name]
        vars := ("inputs", Var.javaJarInputsVar) :: ph.vars
        attrs := ("_classes_extensions",
          ((dictGet ph.attrs "_classes_extensions").getD []) ++ [ext]) :: ph.attrs } := by
  cases hd : dictGet ph.attrs "_classes_extensions" <;>
    simp [JavaClasses.apply_to_phase, h, hd]

/-- Helper: apply_all on a Jar phase succeeds, preserves the executor, and
accumulates the stash and the rebuild-on edges in attachment order. -/
theorem apply_all_spec (exts : List JavaClasses) :
    ∀ ph : Phase, ph.executor.kind = .jar →
      ∃ ph3, apply_all exts ph = .ok ph3
        ∧ ph3.executor = ph.executor
        ∧ (dictGet ph3.attrs "_classes_extensions").getD []
            = ((dictGet ph.attrs "_classes_extensions").getD []) ++ exts
        ∧ ph3.rebuild_on_from
            = ph.rebuild_on_from ++ exts.map JavaClasses._phase_name := by
  induction exts with
  | nil => exact fun ph h => ⟨ph, rfl, rfl, by simp, by simp⟩
  | cons e rest ih =>
    intro ph h
    obtain ⟨ph3, h3, hex, hst, hrb⟩ := ih
      { ph with
        rebuild_on_from := ph.rebuild_on_from ++ [e._phase_name]
        vars := ("inputs", Var.javaJarInputsVar) :: ph.vars
        attrs := ("_classes_extensions",
          ((dictGet ph.attrs "_classes_extensions").getD []) ++ [e]) :: ph.attrs } h
    refine ⟨ph3, ?_, hex, ?_, ?_⟩
    · simpa [apply_all, apply_to_phase_ok e ph h] using h3
    · rw [hst]; simp [dictGet]
    · rw [hrb]; simp

/-- Claim C5: applying a JavaClasses extension to a Jar phase appends the
referenced phase name to rebuild_on_from, binds the variable inputs to the
jar-inputs resolver, and appends the extension to the _classes_extensions
stash while every other stash key reads as before (different extension kinds
stash under different keys); applying n extensions accumulates all n in
attachment order. -/
theorem apply_to_phase_jar_accumulates (ext : JavaClasses) (ph : Phase)
    (h : ph.executor.kind = .jar) :
    (ext.apply_to_phase ph).map Phase.rebuild_on_from
      = .ok (ph.rebuild_on_from ++ [ext._phase_name])
    ∧ (ext.apply_to_phase ph).map (fun p => dictGet p.vars "inputs")
      = .ok (some Var.javaJarInputsVar)
    ∧ (ext.apply_to_phase ph).map (fun p => dictGet p.attrs "_classes_extensions")
      = .ok (some (((dictGet ph.attrs "_classes_extensions").getD []) ++ [ext]))
    ∧ (∀ k, k ≠ "_classes_extensions" →
        (ext.apply_to_phase ph).map (fun p => dictGet p.attrs k)
          = .ok (dictGet ph.attrs k))
    ∧ (∀ exts : List JavaClasses,
        (apply_all exts ph).map (fun p => (dictGet p.attrs "_classes_extensions").getD [])
          = .ok (((dictGet ph.attrs "_classes_extensions").getD []) ++ exts)
        ∧ (apply_all exts ph).map Phase.rebuild_on_from
          = .ok (ph.rebuild_on_from ++ exts.map JavaClasses._phase_name)) := by
  refine ⟨?_, ?_, ?_, fun k hk => ?_, fun exts => ?_⟩
  · simp [apply_to_phase_ok ext ph h, Except.map]
  · simp [apply_to_phase_ok ext ph h, Except.map, dictGet]
  · simp [apply_to_phase_ok ext ph h, Except.map, dictGet]
  · simp [apply_to_phase_ok ext ph h, Except.map, dictGet, Ne.symm hk]
  · obtain ⟨ph3, h3, _, hst, hrb⟩ := apply_all_spec exts ph h
    exact ⟨by simp [h3, hst, Except.map], by simp [h3, hrb, Except.map]⟩

/-- Witness for C5: two extensions attached to a concrete Jar phase
accumulate in attachment order. -/
theorem apply_to_phase_jar_accumulates_witness :
    (apply_all [⟨1, "compile"⟩, ⟨2, "resources"⟩]
        (Phase.mk (Jar none none) "in" "out" [] [] [])).map
        (fun p => (dictGet p.attrs "_classes_extensions").getD [])
      = .ok [⟨1, "compile"⟩, ⟨2, "resources"⟩]
    ∧ (apply_all [⟨1, "compile"⟩, ⟨2, "resources"⟩]
        (Phase.mk (Jar none none) "in" "out" [] [] [])).map Phase.rebuild_on_from
      = .ok ["compile", "resources"] := by
  have h := (apply_to_phase_jar_accumulates ⟨1, "compile"⟩
    (Phase.mk (Jar none none) "in" "out" [] [] []) (by decide)).2.2.2.2
    [⟨1, "compile"⟩, ⟨2, "resources"⟩]
  exact ⟨(h.1).trans (congrArg Except.ok (by decide)),
    (h.2).trans (congrArg Except.ok (by decide))⟩

/-- Helper: a pointwise-ok effectful map is the pure map. -/
theorem mapM_ok_of_ok {α β : Type} (f : α → Except String β) (g : α → β)
    (l : List α) (h : ∀ a ∈ l, f a = .ok (g a)) :
    l.mapM f = .ok (l.map g) := by
  induction l with
  | nil => rfl
  | cons a rest ih =>
    have ha := h a (by simp)
    have hr := ih (fun x hx => h x (by simp [hx]))
    simp only [List.mapM_cons, List.map_cons, ha, hr]
    rfl

/-- Helper: under a present registry, a JavaClasses outputs query returns
exactly the recorded outputs of the referenced phase. -/
theorem classes_outputs_of_reg (c : Ctx) (reg : Registry) (ext : JavaClasses)
    (hreg : ctxGet c "current.project_outputs" = some (.vreg reg)) :
    ext._classes_outputs c = .ok (recorded_outputs reg ext) := by
  cases hd : dictGet reg ext._project <;>
    simp [JavaClasses._classes_outputs, recorded_outputs, hreg, hd]

/-- Claim C6: the resolved jar inputs variable is the space-joined rendering
of every referenced phase's recorded outputs, concatenated in
extension-attachment (stash) order with each phase's own output order
preserved; an output whose file starts with its directory (taken with a
trailing separator) renders as -C directory file-relative-to-directory, any
other output renders as its file path alone. -/
theorem jar_inputs_var_renders (pathify : String → String) (c : Ctx) (ph : Phase)
    (reg : Registry) (exts : List JavaClasses)
    (hreg : ctxGet c "current.project_outputs" = some (.vreg reg))
    (hexts : dictGet ph.attrs "_classes_extensions" = some exts) :
    _java_jar_inputs_var pathify c ph
      = .ok (String.intercalate " "
          (((exts.map (recorded_outputs reg)).flatten).map (jar_inputs_arg pathify)))
    ∧ (∀ o : Output, str_starts_with o.file (withSep o.path) = true →
        jar_inputs_arg pathify o
          = "-C " ++ pathify (withSep o.path) ++ " "
            ++ pathify (str_drop o.file (withSep o.path).length))
    ∧ (∀ o : Output, str_starts_with o.file (withSep o.path) = false →
        jar_inputs_arg pathify o = pathify o.file) := by
  refine ⟨?_, fun o ho => ?_, fun o ho => ?_⟩
  · have hmap := mapM_ok_of_ok (fun ce => ce._classes_outputs c)
      (recorded_outputs reg) exts (fun a _ => classes_outputs_of_reg c reg a hreg)
    simp only [_java_jar_inputs_var, hexts]
    rw [hmap]
    rfl
  · simp [jar_inputs_arg, ho]
  · simp [jar_inputs_arg, ho]

/-- Witness for C6: the scenario of the spec -- phase compile recorded
a.class and b.class under directory out, and the jar phase's inputs variable
renders both relative to that directory, in order. -/
theorem jar_inputs_var_renders_witness :
    _java_jar_inputs_var id
        [[("current.project_outputs",
           Value.vreg [(0, [("compile",
             [Output.mk "out" "out/a.class", Output.mk "out" "out/b.class"])])])]]
        (Phase.mk (Jar none none) "in" "o" [("inputs", Var.javaJarInputsVar)]
          ["compile"] [("_classes_extensions", [⟨0, "compile"⟩])])
      = .ok "-C out/ a.class -C out/ b.class" := by
  have h := (jar_inputs_var_renders id
    [[("current.project_outputs",
       Value.vreg [(0, [("compile",
         [Output.mk "out" "out/a.class", Output.mk "out" "out/b.class"])])])]]
    (Phase.mk (Jar none none) "in" "o" [("inputs", Var.javaJarInputsVar)]
      ["compile"] [("_classes_extensions", [⟨0, "compile"⟩])])
    [(0, [("compile", [Output.mk "out" "out/a.class", Output.mk "out" "out/b.class"])])]
    [⟨0, "compile"⟩] (by decide) (by decide)).1
  refine h.trans (congrArg Except.ok ?_)
  decide

/-- Claim C1: finalizing a JavaCompile phase runs the registered hooks in
registration order (debug, then compile, then classpath) exactly once each:
the token list is the initial dollar-in token, then -g exactly when
build.debug is truthy, then -d dollar-output-path from the compile hook,
then the -classpath option carrying the initial classpath plus the input
path the compile hook appended; and a second finalize from the same
configuration and phase yields the identical token sequence. -/
theorem java_compile_finalize_order_once_det
    (pathify which afilter : String → String) (c : Ctx) (ph : Phase)
    (cmd : Option String) (cp : List String)
    (he : ph.executor = JavaCompile cmd cp) :
    (finalize pathify which afilter c ph).tokens
      = ([Arg.unfiltered "$in"]
          ++ (if (ctxGetD c "build.debug" (.vbool false)).truthy
              then [Arg.filtered "-g"] else [])
          ++ [Arg.unfiltered "-d", Arg.unfiltered "$output_path"]
          ++ [Arg.filtered "-classpath",
              Arg.filtered (String.intercalate ":"
                ((cp ++ [ph.input_path]).map pathify))]).map (render_arg afilter)
    ∧ (∀ c2 ph2, c2 = c → ph2 = ph →
        (finalize pathify which afilter c2 ph2).tokens
          = (finalize pathify which afilter c ph).tokens) := by
  refine ⟨?_, fun c2 ph2 hc hp => by rw [hc, hp]⟩
  obtain ⟨ex, ip, op, vs, rb, at2⟩ := ph
  simp only at he
  subst he
  cases hb : (ctxGetD c "build.debug" (.vbool false)).truthy <;>
    simp [finalize, JavaCompile, run_hook, hb, Executor.enable_debug,
      Executor.add_argument, Executor.add_argument_unfiltered, Executor.add_classpath]

/-- Witness for C1: a concrete JavaCompile phase with no debug flag and an
empty initial classpath finalizes to the expected five tokens. -/
theorem java_compile_finalize_order_once_det_witness :
    (finalize id id id [] (Phase.mk (JavaCompile none []) "src" "build" [] [] [])).tokens
      = ["$in", "-d", "$output_path", "-classpath", "src"] := by
  have h := (java_compile_finalize_order_once_det id id id []
    (Phase.mk (JavaCompile none []) "src" "build" [] [] []) none [] rfl).1
  exact h.trans (by decide)

end Ronin
